import Mathlib

/-!
# Verification of the betstreamer arbitrage / hedge engine

Shallow embedding, in Lean 4, of the arbitrage-detection and
hedge-recommendation core of the betstreamer repository:

* `ArbitrageService` (src/unnamed/part_005): the jurisdiction→bookmaker
  eligibility filter, the credit-conscious estimate, the scan-path
  arbitrage calculator over American odds, the mock-data fallback, and
  the legacy quote-level detector `detectArbitrage`;
* `HedgeService.calculateHedge` (src/server/services/hedgeService.ts);
* the input validation of the `/api/scan/arbs` route
  (src/server/auth.ts).

JavaScript numbers are modelled as `ℚ` (exact rational arithmetic);
`Math.round` is modelled as `⌊x + 1/2⌋` (round half up, the JS
behaviour for the positive values that occur here).  Fallible
operations return `Option`/`Except`.  Display-only string formatting
that depends on locale (`Date.toLocaleString`) is not modelled: such
fields carry the untransformed source string, as noted in place.
-/

set_option autoImplicit false

/-- JS `Math.round` on the rationals: round half towards +∞. -/
def jsRound (q : ℚ) : ℤ := ⌊q + 1/2⌋

lemma jsRound_eq (q : ℚ) (n : ℤ) (h1 : (n : ℚ) ≤ q + 1/2) (h2 : q + 1/2 < n + 1) :
    jsRound q = n := by
  rw [jsRound, Int.floor_eq_iff]
  constructor
  · exact h1
  · exact_mod_cast h2

/-- Round to two decimal places, JS `Math.round(x * 100) / 100`. -/
def round2 (q : ℚ) : ℚ := (jsRound (q * 100) : ℚ) / 100

/-- JS `Array.from(new Set(xs))`: deduplicate keeping first occurrences. -/
def jsDedup (l : List String) : List String :=
  l.foldl (fun acc x => if x ∈ acc then acc else acc ++ [x]) []

/-! ## State/Bookmaker eligibility filter (part_005, `filterBookmakersByStates`)

The service holds a jurisdiction→bookmaker map (`stateMap`, an object
whose entries are iterated in insertion order); we model it as an
association list and keep the concrete shipped map below. -/

/-- One intersection step of the accumulator loop in
`filterBookmakersByStates`: an empty accumulator is replaced wholesale
(`accessibleBookmakers.push(...bookmakers)`), otherwise entries not
present in the current state's list are spliced out. -/
def interStep (acc l : List String) : List String :=
  if acc = [] then l else acc.filter (fun x => x ∈ l)

/-- `ArbitrageService.filterBookmakersByStates` (part_005 lines 351–373):
returns `[]` on an empty selection, otherwise folds the state map,
intersecting the bookmaker lists of every entry whose state code is in
the selection, and deduplicates the result. -/
def filterBookmakersByStates (stateMap : List (String × List String))
    (states : List String) : List String :=
  if states = [] then []
  else jsDedup (stateMap.foldl
    (fun acc e => if e.1 ∈ states then interStep acc e.2 else acc) [])

/-- The concrete `stateMap` of `ArbitrageService` (part_005 lines 67–121). -/
def stateMap : List (String × List String) :=
  [ ("AL", ["draftkings", "fanduel", "caesars", "betmgm"]),
    ("AK", ["draftkings", "fanduel"]),
    ("AZ", ["draftkings", "fanduel", "caesars", "betmgm", "betrivers", "pointsbet", "wynnbet"]),
    ("AR", ["draftkings", "fanduel", "caesars", "betmgm", "betrivers"]),
    ("CA", ["draftkings", "fanduel"]),
    ("CO", ["draftkings", "fanduel", "caesars", "betmgm", "betrivers", "pointsbet", "wynnbet"]),
    ("CT", ["draftkings", "fanduel", "caesars", "betmgm", "betrivers"]),
    ("DE", ["draftkings", "fanduel", "betmgm", "betrivers"]),
    ("FL", ["draftkings", "fanduel", "caesars", "betmgm"]),
    ("GA", ["draftkings", "fanduel"]),
    ("HI", ["draftkings", "fanduel"]),
    ("ID", ["draftkings", "fanduel"]),
    ("IL", ["draftkings", "fanduel", "caesars", "betmgm", "betrivers", "pointsbet", "wynnbet"]),
    ("IN", ["draftkings", "fanduel", "caesars", "betmgm", "betrivers", "pointsbet"]),
    ("IA", ["draftkings", "fanduel", "caesars", "betmgm", "betrivers"]),
    ("KS", ["draftkings", "fanduel", "caesars", "betmgm", "betrivers"]),
    ("KY", ["draftkings", "fanduel", "caesars", "betmgm", "betrivers"]),
    ("LA", ["draftkings", "fanduel", "caesars", "betmgm", "betrivers"]),
    ("ME", ["draftkings", "fanduel", "caesars", "betmgm"]),
    ("MD", ["draftkings", "fanduel", "caesars", "betmgm", "betrivers"]),
    ("MA", ["draftkings", "fanduel", "caesars", "betmgm", "betrivers", "wynnbet"]),
    ("MI", ["draftkings", "fanduel", "caesars", "betmgm", "betrivers", "pointsbet", "wynnbet"]),
    ("MN", ["draftkings", "fanduel", "caesars", "betmgm"]),
    ("MS", ["draftkings", "fanduel", "caesars", "betmgm"]),
    ("MO", ["draftkings", "fanduel", "caesars", "betmgm"]),
    ("MT", ["draftkings", "fanduel"]),
    ("NE", ["draftkings", "fanduel", "caesars", "betmgm"]),
    ("NV", ["draftkings", "fanduel", "caesars", "betmgm", "betrivers", "pointsbet", "wynnbet"]),
    ("NH", ["draftkings", "fanduel", "caesars", "betmgm"]),
    ("NJ", ["draftkings", "fanduel", "caesars", "betmgm", "betrivers", "pointsbet", "wynnbet"]),
    ("NM", ["draftkings", "fanduel"]),
    ("NY", ["draftkings", "fanduel", "caesars", "betmgm", "betrivers", "pointsbet", "wynnbet"]),
    ("NC", ["draftkings", "fanduel", "caesars", "betmgm", "betrivers"]),
    ("ND", ["draftkings", "fanduel"]),
    ("OH", ["draftkings", "fanduel", "caesars", "betmgm", "betrivers", "pointsbet"]),
    ("OK", ["draftkings", "fanduel"]),
    ("OR", ["draftkings", "fanduel"]),
    ("PA", ["draftkings", "fanduel", "caesars", "betmgm", "betrivers", "pointsbet", "wynnbet"]),
    ("RI", ["draftkings", "fanduel", "caesars", "betmgm"]),
    ("SC", ["draftkings", "fanduel"]),
    ("SD", ["draftkings", "fanduel"]),
    ("TN", ["draftkings", "fanduel", "caesars", "betmgm", "betrivers"]),
    ("TX", ["draftkings", "fanduel"]),
    ("UT", ["draftkings", "fanduel"]),
    ("VT", ["draftkings", "fanduel", "caesars", "betmgm"]),
    ("VA", ["draftkings", "fanduel", "caesars", "betmgm", "betrivers"]),
    ("WA", ["draftkings", "fanduel"]),
    ("WV", ["draftkings", "fanduel", "caesars", "betmgm", "betrivers"]),
    ("WI", ["draftkings", "fanduel"]),
    ("WY", ["draftkings", "fanduel"]) ]

example : filterBookmakersByStates stateMap ["CA"] = ["draftkings", "fanduel"] := by decide
example : filterBookmakersByStates stateMap ["CA", "ZZ"] = ["draftkings", "fanduel"] := by decide
example : filterBookmakersByStates stateMap ["ZZ"] = [] := by decide

/-! ## Quotes and the legacy quote-level detector (part_005, `detectArbitrage`)

`Quote` keeps the fields the detector and the hedge calculator read:
`sportsbookId`, `outcomeId`, the decimal price (`parseFloat` of the
stored `priceValue`), and the capture `timestamp` (milliseconds since
epoch, as JS `Date.getTime`). -/

structure Quote where
  sportsbookId : String
  outcomeId : String
  priceValue : ℚ
  timestamp : ℤ
deriving DecidableEq, Repr

/-- The best-quote reduction `quotes.reduce((best, current) =>
currentPrice > bestPrice ? current : best)` shared by `detectArbitrage`
(part_005 lines 977–983) and `HedgeService.calculateHedge`
(hedgeService.ts lines 89–93): a strictly greater price replaces the
incumbent, so the first quote attaining the maximum is kept. -/
def reduceBest (h : Quote) (t : List Quote) : Quote :=
  t.foldl (fun best cur =>
    if best.priceValue < cur.priceValue then cur else best) h

/-- Total wrapper: JS `reduce` without an initial value throws on `[]`;
all call sites only reach it with a non-empty list. -/
def bestQuote : List Quote → Option Quote
  | [] => none
  | h :: t => some (reduceBest h t)

/-- First-occurrence list of outcome ids, the key order of the
`quotes.reduce` grouping object in `detectArbitrage`. -/
def outcomeKeys (quotes : List Quote) : List String :=
  quotes.foldl (fun acc q =>
    if q.outcomeId ∈ acc then acc else acc ++ [q.outcomeId]) []

/-- All quotes of one outcome group, in input order. -/
def groupFor (quotes : List Quote) (k : String) : List Quote :=
  quotes.filter (fun q => q.outcomeId = k)

/-- Per outcome (in grouping order), the best quote of its group. -/
def bestOdds (quotes : List Quote) : List (String × Quote) :=
  (outcomeKeys quotes).filterMap (fun k =>
    (bestQuote (groupFor quotes k)).map (fun q => (k, q)))

/-- `totalImpliedProb`: sum of implied probabilities `1 / best price`
over the per-outcome best quotes. -/
def totalImplied (quotes : List Quote) : ℚ :=
  ((bestOdds quotes).map (fun p => 1 / p.2.priceValue)).sum

/-- `ArbitrageService.calculateConfidenceScore` (part_005 lines
1031–1052), with JS `Date.now()` passed in as `now`. -/
def calculateConfidenceScore (now : ℤ) (quotes : List Quote) : ℚ :=
  let avgAge : ℚ :=
    ((quotes.map (fun q => ((now - q.timestamp : ℤ) : ℚ))).sum) / quotes.length
  let ageScore := max 0 (1 - avgAge / (60 * 60 * 1000))
  let countScore := min 1 ((quotes.length : ℚ) / 5)
  (jsRound ((ageScore * (6/10) + countScore * (4/10)) * 100) : ℚ) / 100

structure ArbLeg where
  sportsbookId : String
  outcomeId : String
  priceValue : ℚ
  stakeFraction : ℚ
deriving DecidableEq, Repr

/-- Upsert into an association list, the JS object-assignment
semantics: an existing key keeps its position and gets the new value,
a new key is appended. -/
def upsert (acc : List (String × ℤ)) (k : String) (v : ℤ) :
    List (String × ℤ) :=
  if acc.any (fun e => e.1 = k) then
    acc.map (fun e => if e.1 = k then (k, v) else e)
  else acc ++ [(k, v)]

structure ArbitrageCalculation where
  eventId : String
  marketId : String
  legs : List ArbLeg
  expectedProfitPct : ℚ
  recommendedStakes : List (String × ℤ)
  confidenceScore : ℚ
deriving DecidableEq, Repr

/-- `ArbitrageService.detectArbitrage` (part_005 lines 956–1029): group
quotes by outcome, take the best price per outcome, return `null`
unless there are at least two quotes, at least two outcomes, and the
total implied probability is strictly below 1; otherwise build legs
with `stakeFraction = impliedProbability / totalImpliedProb`, the
profit margin `(1 - totalImpliedProb) * 100`, and rounded recommended
stakes on the default 10000 bankroll. -/
def detectArbitrage (now : ℤ) (eventId marketId : String)
    (quotes : List Quote) : Option ArbitrageCalculation :=
  if quotes.length < 2 then none
  else if (outcomeKeys quotes).length < 2 then none
  else
    let best := bestOdds quotes
    let total := totalImplied quotes
    if 1 ≤ total then none
    else
      let legs := best.map (fun p =>
        { sportsbookId := p.2.sportsbookId
          outcomeId := p.1
          priceValue := p.2.priceValue
          stakeFraction := (1 / p.2.priceValue) / total : ArbLeg })
      some
        { eventId := eventId
          marketId := marketId
          legs := legs
          expectedProfitPct := (1 - total) * 100
          recommendedStakes := legs.foldl (fun st leg =>
            upsert st leg.sportsbookId (jsRound (10000 * leg.stakeFraction))) []
          confidenceScore := calculateConfidenceScore now quotes }

example :
    (detectArbitrage 0 "e" "m"
      [⟨"A", "X", 21/10, 0⟩, ⟨"B", "X", 43/20, 0⟩, ⟨"C", "Y", 19/10, 0⟩]).map
        (fun c => (c.expectedProfitPct, c.recommendedStakes)) =
      some (700/817, [("B", 4691), ("C", 5309)]) := by
  have e1 : jsRound (380000/81) = 4691 := jsRound_eq _ _ (by norm_num) (by norm_num)
  have e2 : jsRound (430000/81) = 5309 := jsRound_eq _ _ (by norm_num) (by norm_num)
  simp +decide [detectArbitrage, bestOdds, outcomeKeys, groupFor, bestQuote, reduceBest,
    totalImplied, calculateConfidenceScore, upsert]
  norm_num [e1, e2]
  decide

/-! ## Scan-path arbitrage calculator (part_005, `calculateArbitrageOpportunities`)

The scan path works on event-shaped odds data whose prices are
American odds (integers such as `+110` / `-105`). -/

structure BookPrice where
  key : String
  price : ℤ
deriving DecidableEq, Repr

structure OutcomeOdds where
  name : String
  bookmakers : List BookPrice
deriving DecidableEq, Repr

structure MarketOdds where
  type : String
  description : String
  outcomes : List OutcomeOdds
deriving DecidableEq, Repr

structure EventOdds where
  eventId : String
  sport : String
  league : String
  homeTeam : String
  awayTeam : String
  startTime : String
  markets : List MarketOdds
deriving DecidableEq, Repr

/-- `convertAmericanToDecimal` (part_005 lines 893–900).  (At the
American odds value 0, which no real price takes, JS would produce
`Infinity`; the model's total division by zero yields `1` there.) -/
def convertAmericanToDecimal (a : ℤ) : ℚ :=
  if 0 < a then (a : ℚ) / 100 + 1 else 100 / (|a| : ℚ) + 1

/-- JS `String.toUpperCase` on the ASCII market-type codes, modelled
character-wise (Lean's built-in `String.toUpper` goes through an
internal accumulator that the kernel cannot reduce). -/
def jsToUpper (s : String) : String := String.mk (s.data.map Char.toUpper)

/-- `formatSportsbookName` (part_005 lines 906–915). -/
def formatSportsbookName (key : String) : String :=
  if key = "fanduel" then "FanDuel"
  else if key = "draftkings" then "DraftKings"
  else if key = "caesars" then "Caesars"
  else if key = "betmgm" then "BetMGM"
  else if key = "betrivers" then "BetRivers"
  else key

/-- `formatOdds` (part_005 lines 920–922). -/
def formatOdds (a : ℤ) : String :=
  if 0 < a then "+" ++ toString a else toString a

/-- The running best price per outcome: sportsbook key, American
price, decimal price.  JS initializes with
`{ sportsbook: "", price: -Infinity, decimal: 0 }`; the `price` slot
of the initializer is only ever read when no bookmaker is present, in
which case the entry is discarded, so we initialize it with 0. -/
structure BestPrice where
  sportsbook : String
  price : ℤ
  decimal : ℚ
deriving DecidableEq, Repr

/-- The inner bookmaker fold of `calculateArbitrageOpportunities`
(part_005 lines 820–833): a strictly greater decimal price replaces
the incumbent. -/
def bestOf (o : OutcomeOdds) : BestPrice :=
  o.bookmakers.foldl (fun best bk =>
    let d := convertAmericanToDecimal bk.price
    if best.decimal < d then ⟨bk.key, bk.price, d⟩ else best) ⟨"", 0, 0⟩

/-- Upsert into the `bestPrices` association list (JS object keyed by
outcome name: assignment keeps an existing key's position). -/
def upsertBP (acc : List (String × BestPrice)) (k : String) (v : BestPrice) :
    List (String × BestPrice) :=
  if acc.any (fun e => e.1 = k) then
    acc.map (fun e => if e.1 = k then (k, v) else e)
  else acc ++ [(k, v)]

/-- The `bestPrices` record of one market (part_005 lines 817–837),
keyed by outcome name in first-insertion order; an outcome with no
bookmakers (`bestPrice.sportsbook === ""`) is skipped. -/
def bestPricesOf (m : MarketOdds) : List (String × BestPrice) :=
  m.outcomes.foldl (fun acc o =>
    let bp := bestOf o
    if bp.sportsbook = "" then acc else upsertBP acc o.name bp) []

/-- Sum of implied probabilities over a market's best prices
(part_005 line 842). -/
def marketImpliedSum (m : MarketOdds) : ℚ :=
  ((bestPricesOf m).map (fun e => 1 / e.2.decimal)).sum

structure PickLeg where
  outcome : String
  sportsbook : String
  odds : String
  stake : ℤ
deriving DecidableEq, Repr

/-- One entry of the scan result (the `MaxProfitPick` interface).  The
`startTime` field carries the source string unchanged: the code
renders it with the locale-dependent `Date.toLocaleString`, which is
not modelled. -/
structure MaxProfitPick where
  eventId : String
  homeTeam : String
  awayTeam : String
  sport : String
  league : String
  startTime : String
  marketType : String
  marketDescription : String
  legs : List PickLeg
  profitPct : ℚ
  lockedProfit : ℚ
  validityWindow : ℕ
  confidenceScore : ℚ
deriving DecidableEq, Repr

/-- The per-market body of `calculateArbitrageOpportunities`
(part_005 lines 813–886): at least two priced outcomes, total implied
probability below the 0.98 buffer, profit percentage
`(1/sum - 1) * 100` at least `minProfitPct`; stakes are
`round(10000 * (1/decimal_o) / sum)`, the reported `profitPct` and
`lockedProfit` are rounded to 2 decimals, and the confidence score is
`min 0.95 (0.7 + profitPct/10)`. -/
def marketOpportunity (e : EventOdds) (m : MarketOdds) (minProfitPct : ℚ) :
    Option MaxProfitPick :=
  let bps := bestPricesOf m
  if bps.length < 2 then none
  else
    let sum := marketImpliedSum m
    if sum < 49/50 then
      let profitPct := (1 / sum - 1) * 100
      if minProfitPct ≤ profitPct then
        some
          { eventId := e.eventId
            homeTeam := e.homeTeam
            awayTeam := e.awayTeam
            sport := e.sport
            league := e.league
            startTime := e.startTime
            marketType := jsToUpper m.type
            marketDescription := m.description
            legs := bps.map (fun p =>
              { outcome := p.1
                sportsbook := formatSportsbookName p.2.sportsbook
                odds := formatOdds p.2.price
                stake := jsRound (10000 * ((1 / p.2.decimal) / sum)) })
            profitPct := round2 profitPct
            lockedProfit := round2 (10000 * (1 / sum - 1))
            validityWindow := 300
            confidenceScore := min (19/20) (7/10 + profitPct / 10) }
      else none
    else none

/-- `calculateArbitrageOpportunities` (part_005 lines 813–891): the
per-market results, in event order then market order. -/
def calculateArbitrageOpportunities (oddsData : List EventOdds)
    (minProfitPct : ℚ) : List MaxProfitPick :=
  oddsData.flatMap (fun e => e.markets.filterMap (fun m =>
    marketOpportunity e m minProfitPct))

/-! ## Mock fallback and fetch orchestration (part_005,
`getMockArbitrageData`, `convertToArbitrageFormat`,
`fetchAndStoreOddsData`) -/

/-- `getMockArbitrageData` (part_005 lines 760–808): one hardcoded
NBA event with a single moneyline market, with each outcome's
bookmaker list filtered down to the eligible bookmakers. -/
def getMockArbitrageData (eligibleBookmakers : List String) : List EventOdds :=
  [ { eventId := "evt_nba_lakers_warriors_20250915"
      sport := "NBA"
      league := "National Basketball Association"
      homeTeam := "Golden State Warriors"
      awayTeam := "Los Angeles Lakers"
      startTime := "2025-09-15T20:00:00Z"
      markets :=
        [ { type := "h2h"
            description := "Moneyline"
            outcomes :=
              [ { name := "Golden State Warriors"
                  bookmakers :=
                    [⟨"fanduel", -110⟩, ⟨"draftkings", -105⟩, ⟨"caesars", -115⟩].filter
                      (fun b => b.key ∈ eligibleBookmakers) },
                { name := "Los Angeles Lakers"
                  bookmakers :=
                    [⟨"fanduel", 105⟩, ⟨"draftkings", 110⟩, ⟨"caesars", 100⟩].filter
                      (fun b => b.key ∈ eligibleBookmakers) } ] } ] } ]

/-- `convertToArbitrageFormat` (part_005 lines 675–681): the
conversion of stored real data into the arbitrage calculation format
is a stub that returns an empty array unconditionally ("For now,
return empty array … will be calculated … in a future iteration"). -/
def convertToArbitrageFormat {α β : Type} (events : List α) (quotes : List β)
    (eligibleBookmakers : List String) : List EventOdds :=
  []

structure CreditUsage where
  used : ℤ
  remaining : ℤ
deriving DecidableEq, Repr

structure FetchResult where
  opportunities : List EventOdds
  creditUsage : CreditUsage
deriving DecidableEq, Repr

/-- `fetchAndStoreOddsData` (part_005 lines 376–492), restricted to
the data the arbitrage calculation consumes.  The external odds-API
call is a collaborator; its outcome (success with a credit-usage pair,
or any thrown error) is the `apiCall` argument, and the events and
quotes read back from storage on the success path are the
`storedEvents`/`storedQuotes` arguments.  On success the code converts
the stored data (`convertToArbitrageFormat`) and, if that conversion
yields no opportunities, falls back to `getMockArbitrageData` while
preserving the real credit usage; on failure it falls back to
`getMockArbitrageData` with a zero-usage credit pair `{0, 500}`.
(The comprehensive display data is not consumed by the arbitrage
calculation and is omitted.) -/
def fetchAndStoreOddsData {α β : Type} (apiCall : Except String CreditUsage)
    (storedEvents : List α) (storedQuotes : List β)
    (eligibleBookmakers : List String) : FetchResult :=
  match apiCall with
  | Except.ok creditUsage =>
      let opportunities :=
        convertToArbitrageFormat storedEvents storedQuotes eligibleBookmakers
      if opportunities.length = 0 then
        { opportunities := getMockArbitrageData eligibleBookmakers
          creditUsage := creditUsage }
      else
        { opportunities := opportunities, creditUsage := creditUsage }
  | Except.error _ =>
      { opportunities := getMockArbitrageData eligibleBookmakers
        creditUsage := { used := 0, remaining := 500 } }

/-! ## Credit-conscious estimate (part_005, `estimateAPIUsage`) and the
scan route validation (src/server/auth.ts, `POST /api/scan/arbs`) -/

structure EstimateRequest where
  states : List String
  sports : Option (List String)
  regions : Option (List String)
  markets : Option (List String)
  minProfitPct : Option ℚ
deriving DecidableEq, Repr

structure EndpointEstimate where
  name : String
  url : String
  estimatedRequests : ℕ
  description : String
deriving DecidableEq, Repr

structure EstimateResponse where
  endpoints : List EndpointEstimate
  totalEstimatedRequests : ℕ
  estimatedCreditUsage : ℕ
  eligibleBookmakers : ℕ
  warningNote : String
deriving DecidableEq, Repr

/-- `estimateAPIUsage` (part_005 lines 128–216): pure planning over
the filter parameters and the state map — it contacts no provider
endpoint.  An empty `states` list throws immediately
("State filtering is mandatory …"); the model returns that failure as
`Except.error`. -/
def estimateAPIUsage (sm : List (String × List String))
    (request : EstimateRequest) : Except String EstimateResponse :=
  if request.states = [] then
    Except.error "State filtering is mandatory - please select at least one state"
  else
    let sports := request.sports.getD ["all"]
    let regions := request.regions.getD ["us", "us2"]
    let markets := request.markets.getD ["h2h", "spreads", "totals"]
    let sportsEnum : List EndpointEstimate :=
      if "all" ∈ sports then
        [ { name := "Sports Enumeration"
            url := "GET /v4/sports"
            estimatedRequests := 1
            description := "Get list of active sports and leagues" } ]
      else []
    let selectedSports :=
      if "all" ∈ sports then
        ["americanfootball_nfl", "basketball_nba", "baseball_mlb",
         "icehockey_nhl", "soccer_epl"]
      else sports
    let liveUpcomingRequests := selectedSports.length * regions.length
    let totalRequests := (if "all" ∈ sports then 1 else 0) + liveUpcomingRequests
    let eligible := filterBookmakersByStates sm request.states
    let bookmakerFilterNote :=
      if eligible.length < 10 then
        " (filtered to " ++ toString eligible.length ++ " bookmakers for " ++
          String.intercalate ", " request.states ++ ")"
      else
        " (" ++ toString eligible.length ++ " bookmakers available in " ++
          String.intercalate ", " request.states ++ ")"
    let endpoints := sportsEnum ++
      [ { name := "Live & Upcoming Odds"
          url := "GET /v4/sports/{sport}/odds"
          estimatedRequests := liveUpcomingRequests
          description := "Live/upcoming odds for " ++
            toString selectedSports.length ++ " sports × " ++
            toString regions.length ++ " regions (markets: " ++
            String.intercalate ", " markets ++ ")" },
        { name := "Event Details (on-demand)"
          url := "GET /v4/sports/{sport}/events/{event}/odds"
          estimatedRequests := 0
          description :=
            "Extended markets per event - only called when user clicks event details" ++
              bookmakerFilterNote },
        { name := "Historical Data (feature flag)"
          url := "GET /v4/historical/sports/{sport}/odds"
          estimatedRequests := 0
          description :=
            "Historical odds data - only if enabled and user confirms date range" } ]
    let warningNote :=
      if 50 < totalRequests then
        "High request count - consider narrowing sports or regions to reduce cost"
      else if 20 < totalRequests then
        "Moderate request count - results will be comprehensive"
      else "Low request count - efficient scan"
    Except.ok
      { endpoints := endpoints
        totalEstimatedRequests := totalRequests
        estimatedCreditUsage := totalRequests * 1
        eligibleBookmakers := eligible.length
        warningNote := warningNote }

/-- The request body of `POST /api/scan/arbs` (auth.ts lines 513–520). -/
structure ScanBody where
  states : List String
  sports : Option (List String)
  regions : Option (List String)
  markets : Option (List String)
  minProfitPct : Option ℚ
  confirmed : Bool
deriving DecidableEq, Repr

/-- The zod validation and dispatch of `POST /api/scan/arbs` (auth.ts
lines 511–533): the schema requires `states` to be non-empty and
`confirmed` to be `true`, and only a body that passes validation
reaches `arbitrageService.scanArbitrageOpportunities`.  The scan
itself is a collaborator here, abstracted as a function returning a
result together with the number of provider calls it performed; a
rejected body performs zero provider calls. -/
def scanRouteHandler {α : Type} (scan : EstimateRequest → α × ℕ)
    (body : ScanBody) : Except String α × ℕ :=
  if body.states.length < 1 then
    (Except.error "At least one state is required", 0)
  else if body.confirmed = false then
    (Except.error "User confirmation is required", 0)
  else
    let r := scan
      { states := body.states, sports := body.sports, regions := body.regions,
        markets := body.markets, minProfitPct := body.minProfitPct }
    (Except.ok r.1, r.2)

/-! ## Hedge calculator (src/server/services/hedgeService.ts,
`HedgeService.calculateHedge`) -/

/-- The fields of a `UserBet` the hedge calculation reads: the stake,
the decimal price at bet time (both `parseFloat`s of stored strings),
and the bet's own outcome. -/
structure UserBet where
  stake : ℚ
  priceAtBet : ℚ
  outcomeId : String
deriving DecidableEq, Repr

/-- `potentialReturn = originalStake * originalOdds`
(hedgeService.ts lines 79–81). -/
def potentialReturn (bet : UserBet) : ℚ := bet.stake * bet.priceAtBet

/-- The best opposing quote (hedgeService.ts lines 84–93): quotes on
the bet's own outcome are filtered out, and the remaining quotes are
reduced with the same strictly-greater best-price rule as the
detector. -/
def bestOpposing (bet : UserBet) (quotes : List Quote) : Option Quote :=
  bestQuote (quotes.filter (fun q => q.outcomeId ≠ bet.outcomeId))

structure HedgeLeg where
  sportsbookId : String
  outcomeId : String
  priceValue : ℚ
  stake : ℤ
deriving DecidableEq, Repr

/-- The result of `calculateHedge` (the `HedgeCalculation` interface),
minus the display-only `rationale` string (a dollar-formatted
`toFixed(2)` rendering of the locked-profit range, not modelled). -/
structure HedgeCalculation where
  suggestedLegs : List HedgeLeg
  lockedProfitLow : ℚ
  lockedProfitHigh : ℚ
  confidence : ℚ
deriving DecidableEq, Repr

/-- `calculateHedgeConfidence` (hedgeService.ts lines 131–148), with
`Date.now()` passed in as `now`. -/
def calculateHedgeConfidence (now : ℤ) (hedgeQuote : Quote) : ℚ :=
  let quoteAge : ℚ := ((now - hedgeQuote.timestamp : ℤ) : ℚ)
  let ageScore := max 0 (1 - quoteAge / (5 * 60 * 1000))
  (jsRound ((7/10 + ageScore * (3/10)) * 100) : ℚ) / 100

/-- `HedgeService.calculateHedge` (hedgeService.ts lines 78–129):
returns `null` when no opposing quote exists; otherwise hedges the
best opposing price with `hedgeStake = potentialReturn / hedgeOdds`,
computes both profit scenarios, and returns `null` unless the lower
one is strictly positive. -/
def calculateHedge (now : ℤ) (bet : UserBet) (quotes : List Quote) :
    Option HedgeCalculation :=
  match bestOpposing bet quotes with
  | none => none
  | some bestOpposingQuote =>
      let hedgeOdds := bestOpposingQuote.priceValue
      let hedgeStake := potentialReturn bet / hedgeOdds
      let hedgeReturn := hedgeStake * hedgeOdds
      let profitIfOriginalWins := potentialReturn bet - bet.stake - hedgeStake
      let profitIfHedgeWins := hedgeReturn - bet.stake - hedgeStake
      let lockedProfitLow := min profitIfOriginalWins profitIfHedgeWins
      let lockedProfitHigh := max profitIfOriginalWins profitIfHedgeWins
      if lockedProfitLow ≤ 0 then none
      else
        some
          { suggestedLegs :=
              [ { sportsbookId := bestOpposingQuote.sportsbookId
                  outcomeId := bestOpposingQuote.outcomeId
                  priceValue := hedgeOdds
                  stake := jsRound hedgeStake } ]
            lockedProfitLow := lockedProfitLow
            lockedProfitHigh := lockedProfitHigh
            confidence := calculateHedgeConfidence now bestOpposingQuote }

example :
    (calculateHedge 0 ⟨100, 11/5, "X"⟩
        [⟨"dk", "X", 21/10, 0⟩, ⟨"fd", "Y", 39/20, 0⟩]).map
      (fun c => (c.lockedProfitLow, c.lockedProfitHigh)) =
      some (280/39, 280/39) := by
  simp +decide [calculateHedge, bestOpposing, bestQuote, reduceBest, potentialReturn,
    calculateHedgeConfidence, List.filter_cons, List.filter_nil]
  norm_num

/-! ## Helper lemmas -/

lemma jsDedup_mem_aux (l acc : List String) (x : String) :
    x ∈ l.foldl (fun acc x => if x ∈ acc then acc else acc ++ [x]) acc ↔
      x ∈ acc ∨ x ∈ l := by
  induction l generalizing acc with
  | nil => simp
  | cons y t ih =>
      simp only [List.foldl_cons, ih]
      by_cases hy : y ∈ acc
      · simp [hy]
        constructor
        · tauto
        · rintro (h | h | h)
          · tauto
          · subst h; tauto
          · tauto
      · simp [hy, List.mem_append]
        tauto

lemma jsDedup_mem (l : List String) (x : String) : x ∈ jsDedup l ↔ x ∈ l := by
  simp [jsDedup, jsDedup_mem_aux]

/-- The bookmaker lists of the state-map entries whose key is in the
selection, in map order: the lists the accumulator loop of
`filterBookmakersByStates` actually intersects. -/
def matchedVals (m : List (String × List String)) (S : List String) :
    List (List String) :=
  (m.filter (fun e => e.1 ∈ S)).map Prod.snd

lemma matchedVals_nil (S : List String) : matchedVals [] S = [] := rfl

lemma matchedVals_cons (e : String × List String)
    (t : List (String × List String)) (S : List String) :
    matchedVals (e :: t) S =
      if e.1 ∈ S then e.2 :: matchedVals t S else matchedVals t S := by
  by_cases h : e.1 ∈ S <;> simp [matchedVals, List.filter_cons, h]

lemma matchedVals_congr (m : List (String × List String)) (S S' : List String)
    (h : ∀ e ∈ m, (e.1 ∈ S ↔ e.1 ∈ S')) : matchedVals m S = matchedVals m S' := by
  induction m with
  | nil => rfl
  | cons e t ih =>
      rw [matchedVals_cons, matchedVals_cons,
        ih (fun x hx => h x (List.mem_cons_of_mem _ hx))]
      by_cases he : e.1 ∈ S
      · rw [if_pos he, if_pos ((h e (List.mem_cons_self _ _)).1 he)]
      · rw [if_neg he, if_neg (fun hc => he ((h e (List.mem_cons_self _ _)).2 hc))]

lemma matchedVals_single (m : List (String × List String)) (X : String)
    (lX : List String) (hnd : (m.map Prod.fst).Nodup) (hmem : (X, lX) ∈ m) :
    matchedVals m [X] = [lX] := by
  induction m with
  | nil => simp at hmem
  | cons e t ih =>
      simp only [List.map_cons, List.nodup_cons, List.mem_map] at hnd
      rcases List.mem_cons.1 hmem with he | ht
      · subst he
        rw [matchedVals_cons, if_pos (by simp)]
        have hnone : matchedVals t [X] = matchedVals t [] := by
          apply matchedVals_congr
          intro f hf
          simp only [List.mem_singleton, List.not_mem_nil, iff_false]
          intro hfx
          exact hnd.1 ⟨f, hf, hfx.symm ▸ rfl⟩
        have : matchedVals t [] = [] := by
          apply List.eq_nil_of_length_eq_zero
          simp [matchedVals, List.filter_eq_nil_iff]
        rw [hnone, this]
      · have hne : e.1 ≠ X := by
          intro hx
          exact hnd.1 ⟨(X, lX), ht, by simp [hx]⟩
        rw [matchedVals_cons, if_neg (by simp [hne])]
        exact ih hnd.2 ht

lemma matchedVals_pair (m : List (String × List String)) (A B : String)
    (lA lB : List String) (hnd : (m.map Prod.fst).Nodup)
    (hA : (A, lA) ∈ m) (hB : (B, lB) ∈ m) (hAB : A ≠ B) :
    matchedVals m [A, B] = [lA, lB] ∨ matchedVals m [A, B] = [lB, lA] := by
  induction m with
  | nil => simp at hA
  | cons e t ih =>
      simp only [List.map_cons, List.nodup_cons, List.mem_map] at hnd
      by_cases heA : e = (A, lA)
      · left
        subst heA
        rw [matchedVals_cons, if_pos (by simp)]
        have hBt : (B, lB) ∈ t := by
          rcases List.mem_cons.1 hB with h | h
          · exact absurd (congrArg Prod.fst h).symm hAB
          · exact h
        have : matchedVals t [A, B] = matchedVals t [B] := by
          apply matchedVals_congr
          intro f hf
          have hfA : f.1 ≠ A := fun hx => hnd.1 ⟨f, hf, hx ▸ rfl⟩
          simp [hfA]
        rw [this, matchedVals_single t B lB hnd.2 hBt]
      · by_cases heB : e = (B, lB)
        · right
          subst heB
          rw [matchedVals_cons, if_pos (by simp)]
          have hAt : (A, lA) ∈ t := by
            rcases List.mem_cons.1 hA with h | h
            · exact absurd (congrArg Prod.fst h) hAB
            · exact h
          have : matchedVals t [A, B] = matchedVals t [A] := by
            apply matchedVals_congr
            intro f hf
            have hfB : f.1 ≠ B := fun hx => hnd.1 ⟨f, hf, hx ▸ rfl⟩
            simp [hfB]
          rw [this, matchedVals_single t A lA hnd.2 hAt]
        · have hA' : (A, lA) ∈ t := by
            rcases List.mem_cons.1 hA with h | h
            · exact absurd h.symm heA
            · exact h
          have hB' : (B, lB) ∈ t := by
            rcases List.mem_cons.1 hB with h | h
            · exact absurd h.symm heB
            · exact h
          by_cases he : e.1 ∈ ([A, B] : List String)
          · exfalso
            rcases List.mem_pair.1 he with h | h
            · exact hnd.1 ⟨(A, lA), hA', by simp [h]⟩
            · exact hnd.1 ⟨(B, lB), hB', by simp [h]⟩
          · rw [matchedVals_cons, if_neg he]
            exact ih hnd.2 hA' hB'

lemma filterBookmakers_fold (m : List (String × List String))
    (S : List String) (init : List String) :
    m.foldl (fun acc e => if e.1 ∈ S then interStep acc e.2 else acc) init =
      (matchedVals m S).foldl interStep init := by
  induction m generalizing init with
  | nil => rfl
  | cons e t ih =>
      rw [List.foldl_cons, matchedVals_cons]
      by_cases he : e.1 ∈ S
      · rw [if_pos he, if_pos he, List.foldl_cons, ih]
      · rw [if_neg he, if_neg he, ih]

lemma filterBookmakers_eq_matched (m : List (String × List String))
    (S : List String) (hS : S ≠ []) :
    filterBookmakersByStates m S =
      jsDedup ((matchedVals m S).foldl interStep []) := by
  rw [filterBookmakersByStates, if_neg hS, filterBookmakers_fold]

/-- Claim C5, counterexample: a jurisdiction code absent from the map
("ZZ") is silently ignored rather than contributing an empty
bookmaker set, so `eligibleBookmakers({CA, ZZ})` is not the
intersection of `eligibleBookmakers({CA})` and
`eligibleBookmakers({ZZ})` (which is empty). -/
theorem eligibility_unknown_state_counterexample :
    "draftkings" ∈ filterBookmakersByStates stateMap ["CA", "ZZ"] ∧
      "draftkings" ∉ filterBookmakersByStates stateMap ["ZZ"] := by
  decide

/-- Claim C5 (amended): for two distinct jurisdiction codes that do
have entries in the map (with non-empty bookmaker lists, as every
entry of the shipped map has), `eligibleBookmakers({A,B})` equals the
set intersection of `eligibleBookmakers({A})` and
`eligibleBookmakers({B})`, and the order of the two jurisdictions does
not affect the result; a supplied code with no entry in the mapping is
ignored (it imposes no constraint), so the equality can fail there. -/
theorem eligibility_exact_intersection (m : List (String × List String))
    (A B : String) (lA lB : List String)
    (hnd : (m.map Prod.fst).Nodup) (hA : (A, lA) ∈ m) (hB : (B, lB) ∈ m)
    (hAB : A ≠ B) (hlA : lA ≠ []) (hlB : lB ≠ []) :
    (∀ x, x ∈ filterBookmakersByStates m [A, B] ↔
        x ∈ filterBookmakersByStates m [A] ∧
          x ∈ filterBookmakersByStates m [B]) ∧
    filterBookmakersByStates m [A, B] = filterBookmakersByStates m [B, A] := by
  have hpairAB := filterBookmakers_eq_matched m [A, B] (by simp)
  have hpairBA := filterBookmakers_eq_matched m [B, A] (by simp)
  have hsingleA := filterBookmakers_eq_matched m [A] (by simp)
  have hsingleB := filterBookmakers_eq_matched m [B] (by simp)
  have hcomm : matchedVals m [A, B] = matchedVals m [B, A] :=
    matchedVals_congr m [A, B] [B, A] (by
      intro e _
      simp only [List.mem_pair]
      exact or_comm)
  constructor
  · intro x
    rw [hpairAB, hsingleA, hsingleB,
      matchedVals_single m A lA hnd hA, matchedVals_single m B lB hnd hB]
    have istep_nil : ∀ l : List String, interStep [] l = l := by
      intro l; simp [interStep]
    have istep_ne : ∀ l l' : List String, l ≠ [] →
        interStep l l' = l.filter (fun x => x ∈ l') := by
      intro l l' hl; rw [interStep, if_neg hl]
    rcases matchedVals_pair m A B lA lB hnd hA hB hAB with h | h <;>
      rw [h] <;>
      simp only [List.foldl_cons, List.foldl_nil, istep_nil] <;>
      [rw [istep_ne _ _ hlA]; rw [istep_ne _ _ hlB]] <;>
      simp only [jsDedup_mem, List.mem_filter, decide_eq_true_eq] <;>
      tauto
  · rw [hpairAB, hpairBA, hcomm]

/-- Witness for C5's amended theorem, on the shipped map at
`{CA, NJ}`. -/
theorem eligibility_exact_intersection_witness :
    filterBookmakersByStates stateMap ["CA", "NJ"] =
      filterBookmakersByStates stateMap ["NJ", "CA"] :=
  (eligibility_exact_intersection stateMap "CA" "NJ"
    ["draftkings", "fanduel"]
    ["draftkings", "fanduel", "caesars", "betmgm", "betrivers", "pointsbet",
      "wynnbet"]
    (by decide) (by decide) (by decide) (by decide) (by decide) (by decide)).2

/-! ## Best-quote selection lemmas -/

lemma reduceBest_cons (h c : Quote) (t : List Quote) :
    reduceBest h (c :: t) =
      reduceBest (if h.priceValue < c.priceValue then c else h) t := rfl

lemma reduceBest_mem (h : Quote) (t : List Quote) :
    reduceBest h t = h ∨ reduceBest h t ∈ t := by
  induction t generalizing h with
  | nil => left; rfl
  | cons c t' ih =>
      rw [reduceBest_cons]
      by_cases hlt : h.priceValue < c.priceValue
      · rw [if_pos hlt]
        rcases ih c with h1 | h1
        · right; rw [h1]; exact List.mem_cons_self _ _
        · right; exact List.mem_cons_of_mem _ h1
      · rw [if_neg hlt]
        rcases ih h with h1 | h1
        · left; exact h1
        · right; exact List.mem_cons_of_mem _ h1

lemma reduceBest_le (h : Quote) (t : List Quote) :
    ∀ p ∈ h :: t, p.priceValue ≤ (reduceBest h t).priceValue := by
  induction t generalizing h with
  | nil =>
      intro p hp
      rcases List.mem_singleton.1 hp with rfl
      exact le_refl _
  | cons c t' ih =>
      intro p hp
      rw [reduceBest_cons]
      have hstep : h.priceValue ≤
          (if h.priceValue < c.priceValue then c else h).priceValue ∧
          c.priceValue ≤
            (if h.priceValue < c.priceValue then c else h).priceValue := by
        by_cases hlt : h.priceValue < c.priceValue
        · rw [if_pos hlt]; exact ⟨le_of_lt hlt, le_refl _⟩
        · rw [if_neg hlt]; exact ⟨le_refl _, le_of_not_lt hlt⟩
      rcases List.mem_cons.1 hp with rfl | hp'
      · exact le_trans hstep.1 (ih _ _ (List.mem_cons_self _ _))
      · rcases List.mem_cons.1 hp' with rfl | hp''
        · exact le_trans hstep.2 (ih _ _ (List.mem_cons_self _ _))
        · exact ih _ _ (List.mem_cons_of_mem _ hp'')

lemma reduceBest_stable (h : Quote) (t : List Quote)
    (hmax : ∀ p ∈ t, p.priceValue ≤ h.priceValue) : reduceBest h t = h := by
  induction t with
  | nil => rfl
  | cons c t' ih =>
      rw [reduceBest_cons,
        if_neg (not_lt.2 (hmax c (List.mem_cons_self _ _)))]
      exact ih (fun p hp => hmax p (List.mem_cons_of_mem _ hp))

lemma reduceBest_tie (h : Quote) (t : List Quote)
    (hp : List.Pairwise (fun a b => b.timestamp ≤ a.timestamp) (h :: t)) :
    ∀ p ∈ h :: t, p.priceValue = (reduceBest h t).priceValue →
      p.timestamp ≤ (reduceBest h t).timestamp := by
  induction t generalizing h with
  | nil =>
      intro p hmem _
      rcases List.mem_singleton.1 hmem with rfl
      exact le_refl _
  | cons c t' ih =>
      rcases List.pairwise_cons.1 hp with ⟨hhead, hct⟩
      rcases List.pairwise_cons.1 hct with ⟨hcts, ht'⟩
      intro p hmem hprice
      rw [reduceBest_cons] at hprice ⊢
      by_cases hlt : h.priceValue < c.priceValue
      · rw [if_pos hlt] at hprice ⊢
        rcases List.mem_cons.1 hmem with rfl | hmem'
        · exfalso
          have hc_le : c.priceValue ≤ (reduceBest c t').priceValue :=
            reduceBest_le c t' c (List.mem_cons_self _ _)
          exact absurd hprice (ne_of_lt (lt_of_lt_of_le hlt hc_le))
        · exact ih c hct p hmem' hprice
      · rw [if_neg hlt] at hprice ⊢
        have hht' : List.Pairwise (fun a b => b.timestamp ≤ a.timestamp)
            (h :: t') := by
          rw [List.pairwise_cons]
          exact ⟨fun x hx => hhead x (List.mem_cons_of_mem _ hx), ht'⟩
        rcases List.mem_cons.1 hmem with hpe | hmem'
        · rw [hpe] at hprice ⊢
          exact ih h hht' h (List.mem_cons_self _ _) hprice
        · rcases List.mem_cons.1 hmem' with rfl | hmem''
          · have hc_le_h : p.priceValue ≤ h.priceValue := le_of_not_lt hlt
            have hh_le : h.priceValue ≤ (reduceBest h t').priceValue :=
              reduceBest_le h t' h (List.mem_cons_self _ _)
            have hall : ∀ x ∈ t', x.priceValue ≤ h.priceValue := by
              intro x hx
              calc x.priceValue ≤ (reduceBest h t').priceValue :=
                    reduceBest_le h t' x (List.mem_cons_of_mem _ hx)
                _ = p.priceValue := hprice.symm
                _ ≤ h.priceValue := hc_le_h
            rw [reduceBest_stable h t' hall]
            exact hhead p (List.mem_cons_self _ _)
          · exact ih h hht' p (List.mem_cons_of_mem _ hmem'') hprice

/-- Claim C9: the selection rule shared by `detectArbitrage` (per
outcome group) and `HedgeService.calculateHedge` (over opposing
quotes) picks a quote of maximal decimal price, and — since the
quotes both call sites pass come from `storage.getQuotes`, which
orders by capture timestamp descending (storage.ts line 352) — among
quotes sharing that maximal price it picks one captured at least as
recently as every other. -/
theorem best_quote_selection (qs : List Quote) (q : Quote)
    (h : bestQuote qs = some q) :
    q ∈ qs ∧ (∀ p ∈ qs, p.priceValue ≤ q.priceValue) ∧
      (List.Pairwise (fun a b => b.timestamp ≤ a.timestamp) qs →
        ∀ p ∈ qs, p.priceValue = q.priceValue → p.timestamp ≤ q.timestamp) := by
  cases qs with
  | nil => simp [bestQuote] at h
  | cons h' t =>
      have hq : reduceBest h' t = q := by
        simpa [bestQuote] using h
      subst hq
      refine ⟨?_, reduceBest_le h' t,
        fun hpw p hp hpr => reduceBest_tie h' t hpw p hp hpr⟩
      rcases reduceBest_mem h' t with h1 | h1
      · rw [h1]; exact List.mem_cons_self _ _
      · exact List.mem_cons_of_mem _ h1

/-- Witness for C9: two quotes tied at price 2, the fresher first (as
storage returns them); the selected quote is the fresher one. -/
theorem best_quote_selection_witness :
    (⟨"b", "X", 2, 50⟩ : Quote).timestamp ≤
      (⟨"a", "X", 2, 100⟩ : Quote).timestamp :=
  (best_quote_selection [⟨"a", "X", 2, 100⟩, ⟨"b", "X", 2, 50⟩]
      ⟨"a", "X", 2, 100⟩ rfl).2.2
    (by norm_num) ⟨"b", "X", 2, 50⟩ (by simp) rfl

/-! ## Outcome grouping lemmas -/

lemma outcomeKeys_mem_aux (qs : List Quote) (acc : List String) (k : String) :
    k ∈ qs.foldl (fun acc q =>
        if q.outcomeId ∈ acc then acc else acc ++ [q.outcomeId]) acc ↔
      k ∈ acc ∨ ∃ q ∈ qs, q.outcomeId = k := by
  induction qs generalizing acc with
  | nil => simp
  | cons y t ih =>
      simp only [List.foldl_cons, ih, List.mem_cons]
      by_cases hy : y.outcomeId ∈ acc
      · rw [if_pos hy]
        constructor
        · rintro (h | ⟨q, hq, hqe⟩)
          · exact Or.inl h
          · exact Or.inr ⟨q, Or.inr hq, hqe⟩
        · rintro (h | ⟨q, hq | hq, hqe⟩)
          · exact Or.inl h
          · exact Or.inl (by rw [← hqe, hq]; exact hy)
          · exact Or.inr ⟨q, hq, hqe⟩
      · rw [if_neg hy]
        simp only [List.mem_append, List.mem_singleton]
        constructor
        · rintro ((h | h) | ⟨q, hq, hqe⟩)
          · exact Or.inl h
          · exact Or.inr ⟨y, Or.inl rfl, h.symm⟩
          · exact Or.inr ⟨q, Or.inr hq, hqe⟩
        · rintro (h | ⟨q, hq | hq, hqe⟩)
          · exact Or.inl (Or.inl h)
          · exact Or.inl (Or.inr (by rw [← hqe, hq]))
          · exact Or.inr ⟨q, hq, hqe⟩

lemma outcomeKeys_mem (qs : List Quote) (k : String) :
    k ∈ outcomeKeys qs ↔ ∃ q ∈ qs, q.outcomeId = k := by
  rw [outcomeKeys, outcomeKeys_mem_aux]
  simp

lemma bestOdds_mem (qs : List Quote) (k : String) (q : Quote)
    (h : (k, q) ∈ bestOdds qs) : q ∈ qs ∧ q.outcomeId = k := by
  rw [bestOdds, List.mem_filterMap] at h
  obtain ⟨k', _, hk'⟩ := h
  rw [Option.map_eq_some'] at hk'
  obtain ⟨q', hq', heq⟩ := hk'
  have h1 : k' = k := congrArg Prod.fst heq
  have h2 : q' = q := congrArg Prod.snd heq
  subst h1
  subst h2
  have hmem := (best_quote_selection _ _ hq').1
  rw [groupFor, List.mem_filter, decide_eq_true_eq] at hmem
  exact hmem

lemma bestOdds_ne_nil (qs : List Quote) (hk : outcomeKeys qs ≠ []) :
    bestOdds qs ≠ [] := by
  cases hkeys : outcomeKeys qs with
  | nil => exact absurd hkeys hk
  | cons k rest =>
      have hkmem : k ∈ outcomeKeys qs := by rw [hkeys]; exact List.mem_cons_self _ _
      obtain ⟨q, hq, hqe⟩ := (outcomeKeys_mem qs k).1 hkmem
      have hgrp : q ∈ groupFor qs k := by
        rw [groupFor, List.mem_filter, decide_eq_true_eq]
        exact ⟨hq, hqe⟩
      cases hg : groupFor qs k with
      | nil => rw [hg] at hgrp; simp at hgrp
      | cons g t =>
          rw [bestOdds, hkeys, List.filterMap_cons, hg]
          simp [bestQuote]

lemma totalImplied_pos (qs : List Quote)
    (hpos : ∀ q ∈ qs, 0 < q.priceValue) (hk : outcomeKeys qs ≠ []) :
    0 < totalImplied qs := by
  rw [totalImplied]
  apply List.sum_pos
  · intro x hx
    rw [List.mem_map] at hx
    obtain ⟨p, hp, rfl⟩ := hx
    have := (bestOdds_mem qs p.1 p.2 hp).1
    exact div_pos one_pos (hpos p.2 this)
  · simp only [ne_eq, List.map_eq_nil_iff]
    exact bestOdds_ne_nil qs hk

/-! ## Claims about the quote-level detector -/

/-- Claim C2: whenever the sum of implied probabilities over the
per-outcome best prices is at least 1, the detector produces no
opportunity — `detectArbitrage` returns `null` (its guard is exactly
`totalImplied < 1`), and the scan-path per-market calculator rejects
too (its guard `sum < 0.98` is stricter still). -/
theorem detect_no_false_positive (now : ℤ) (eventId marketId : String)
    (quotes : List Quote) (h : 1 ≤ totalImplied quotes)
    (e : EventOdds) (m : MarketOdds) (hm : 1 ≤ marketImpliedSum m)
    (minProfitPct : ℚ) :
    detectArbitrage now eventId marketId quotes = none ∧
      marketOpportunity e m minProfitPct = none := by
  constructor
  · rw [detectArbitrage]
    by_cases h1 : quotes.length < 2
    · rw [if_pos h1]
    · rw [if_neg h1]
      by_cases h2 : (outcomeKeys quotes).length < 2
      · rw [if_pos h2]
      · rw [if_neg h2, if_pos h]
  · rw [marketOpportunity]
    simp only []
    by_cases h1 : (bestPricesOf m).length < 2
    · rw [if_pos h1]
    · rw [if_neg h1, if_neg (by push_neg; linarith)]

/-- A two-outcome market with both outcomes quoted at +100 (decimal
2.0): implied sum exactly 1. -/
def cMarketC2 : MarketOdds :=
  { type := "h2h"
    description := "Moneyline"
    outcomes := [⟨"X", [⟨"a", 100⟩]⟩, ⟨"Y", [⟨"b", 100⟩]⟩] }

def cEventC2 : EventOdds :=
  { eventId := "ev"
    sport := "NBA"
    league := "L"
    homeTeam := "H"
    awayTeam := "A"
    startTime := "2025-09-15T20:00:00Z"
    markets := [cMarketC2] }

/-- Witness for C2: two outcomes both at decimal price 2 give total
implied probability exactly 1, and both detectors return `null`. -/
theorem detect_no_false_positive_witness :
    detectArbitrage 0 "e" "m" [⟨"a", "X", 2, 0⟩, ⟨"b", "Y", 2, 0⟩] = none ∧
      marketOpportunity cEventC2 cMarketC2 1 = none :=
  detect_no_false_positive 0 "e" "m" _ (by
      simp +decide [totalImplied, bestOdds, outcomeKeys, groupFor, bestQuote,
        reduceBest]
      norm_num)
    cEventC2 cMarketC2 (by
      simp +decide [marketImpliedSum, bestPricesOf, bestOf, upsertBP,
        convertAmericanToDecimal, cMarketC2]
      norm_num)
    1

/-- Claim C1: whenever `detectArbitrage` produces an opportunity over
quotes with positive prices, each leg's stake on a notional bankroll
`B` is `B * (1/price_o) / totalImplied`, the payout
`stake_o * price_o` is equal across all legs (exactly, at the
unrounded stake fractions the legs carry), and the leg stakes sum to
exactly the bankroll `B`. -/
theorem detect_stake_allocation (now : ℤ) (eventId marketId : String)
    (quotes : List Quote) (B : ℚ)
    (hpos : ∀ q ∈ quotes, 0 < q.priceValue) (c : ArbitrageCalculation)
    (h : detectArbitrage now eventId marketId quotes = some c) :
    (∀ leg ∈ c.legs,
        B * leg.stakeFraction = B * (1 / leg.priceValue) / totalImplied quotes) ∧
    (∀ l₁ ∈ c.legs, ∀ l₂ ∈ c.legs,
        B * l₁.stakeFraction * l₁.priceValue =
          B * l₂.stakeFraction * l₂.priceValue) ∧
    (c.legs.map (fun l => B * l.stakeFraction)).sum = B := by
  rw [detectArbitrage] at h
  by_cases h1 : quotes.length < 2
  · rw [if_pos h1] at h; exact absurd h (by simp)
  rw [if_neg h1] at h
  by_cases h2 : (outcomeKeys quotes).length < 2
  · rw [if_pos h2] at h; exact absurd h (by simp)
  rw [if_neg h2] at h
  by_cases h3 : 1 ≤ totalImplied quotes
  · rw [if_pos h3] at h; exact absurd h (by simp)
  rw [if_neg h3, Option.some.injEq] at h
  subst h
  have hkne : outcomeKeys quotes ≠ [] := by
    intro hnil
    rw [hnil] at h2
    simp at h2
  have hT : 0 < totalImplied quotes := totalImplied_pos quotes hpos hkne
  have hTne : totalImplied quotes ≠ 0 := ne_of_gt hT
  refine ⟨?_, ?_, ?_⟩
  · intro leg hleg
    simp only [List.mem_map] at hleg
    obtain ⟨p, _, rfl⟩ := hleg
    exact (mul_div_assoc _ _ _).symm
  · intro l₁ hl₁ l₂ hl₂
    simp only [List.mem_map] at hl₁ hl₂
    obtain ⟨p₁, hp₁, rfl⟩ := hl₁
    obtain ⟨p₂, hp₂, rfl⟩ := hl₂
    have hm₁ := bestOdds_mem quotes p₁.1 p₁.2 (by rwa [Prod.mk.eta])
    have hm₂ := bestOdds_mem quotes p₂.1 p₂.2 (by rwa [Prod.mk.eta])
    have hp₁pos : p₁.2.priceValue ≠ 0 := ne_of_gt (hpos _ hm₁.1)
    have hp₂pos : p₂.2.priceValue ≠ 0 := ne_of_gt (hpos _ hm₂.1)
    simp only []
    field_simp
    ring
  · rw [List.map_map]
    have hme : ((bestOdds quotes).map
          ((fun l : ArbLeg => B * l.stakeFraction) ∘ fun p =>
            { sportsbookId := p.2.sportsbookId, outcomeId := p.1,
              priceValue := p.2.priceValue,
              stakeFraction := 1 / p.2.priceValue / totalImplied quotes })) =
        (bestOdds quotes).map (fun p =>
          (1 / p.2.priceValue) * (B / totalImplied quotes)) :=
      List.map_congr_left (fun a _ => by
        simp only [Function.comp]
        ring)
    rw [hme, List.sum_map_mul_right,
      show ((bestOdds quotes).map fun p => 1 / p.2.priceValue).sum =
        totalImplied quotes from rfl]
    field_simp

/-- The spec's §8 detector scenario as input quotes: outcome X quoted
2.10 (book A) and 2.15 (book B), outcome Y quoted 1.90 (book C). -/
def wQuotesC1 : List Quote :=
  [⟨"A", "X", 21/10, 0⟩, ⟨"B", "X", 43/20, 0⟩, ⟨"C", "Y", 19/10, 0⟩]

/-- The calculation `detectArbitrage` produces on `wQuotesC1`. -/
def wCalcC1 : ArbitrageCalculation :=
  { eventId := "e"
    marketId := "m"
    legs := [⟨"B", "X", 43/20, 38/81⟩, ⟨"C", "Y", 19/10, 43/81⟩]
    expectedProfitPct := 700/817
    recommendedStakes := [("B", 4691), ("C", 5309)]
    confidenceScore := 21/25 }

lemma wCalcC1_eval : detectArbitrage 0 "e" "m" wQuotesC1 = some wCalcC1 := by
  have e1 : jsRound (380000/81) = 4691 := jsRound_eq _ _ (by norm_num) (by norm_num)
  have e2 : jsRound (430000/81) = 5309 := jsRound_eq _ _ (by norm_num) (by norm_num)
  have e3 : jsRound 84 = 84 := jsRound_eq _ _ (by norm_num) (by norm_num)
  simp +decide [detectArbitrage, bestOdds, outcomeKeys, groupFor, bestQuote,
    reduceBest, totalImplied, calculateConfidenceScore, upsert, wQuotesC1,
    wCalcC1, max_def, min_def]
  norm_num [e1, e2, e3]
  decide

/-- Witness for C1, on the spec's §8 scenario with a 1000 bankroll:
the leg stakes sum to exactly the bankroll. -/
theorem detect_stake_allocation_witness :
    (wCalcC1.legs.map (fun l => (1000 : ℚ) * l.stakeFraction)).sum = 1000 :=
  (detect_stake_allocation 0 "e" "m" wQuotesC1 1000
    (by
      intro q hq
      simp only [wQuotesC1, List.mem_cons, List.not_mem_nil, or_false] at hq
      rcases hq with rfl | rfl | rfl <;> norm_num)
    wCalcC1 wCalcC1_eval).2.2

/-! ## Claims C3 and C4: reported profit and the minimum-profit filter -/

/-- Claim C3, counterexample: two outcomes both priced 4.0 give
`totalImplied = 1/2`; `detectArbitrage` reports
`expectedProfitPct = 50` (the margin `(1 - totalImplied) * 100`),
while the claimed formula `(1/totalImplied - 1) * 100` gives 100. -/
theorem profit_formula_counterexample :
    (detectArbitrage 0 "e" "m" [⟨"a", "X", 4, 0⟩, ⟨"b", "Y", 4, 0⟩]).map
        (fun c => c.expectedProfitPct) = some 50 ∧
      (1 / totalImplied [⟨"a", "X", 4, 0⟩, ⟨"b", "Y", 4, 0⟩] - 1) * 100 = 100 ∧
      (50 : ℚ) ≠ 100 := by
  refine ⟨?_, ?_, by norm_num⟩ <;>
    · simp +decide [detectArbitrage, bestOdds, outcomeKeys, groupFor, bestQuote,
        reduceBest, totalImplied]
      norm_num

/-- Claims C3 (amended): the legacy quote-level detector reports the
profit margin `(1 - totalImplied) * 100`, not
`(1/totalImplied - 1) * 100`; the scan-path calculator reports
`(1/totalImplied - 1) * 100` rounded to two decimal places. -/
theorem profit_formula_amended (now : ℤ) (eventId marketId : String)
    (quotes : List Quote) (c : ArbitrageCalculation)
    (h : detectArbitrage now eventId marketId quotes = some c)
    (e : EventOdds) (m : MarketOdds) (minProfitPct : ℚ) (o : MaxProfitPick)
    (ho : marketOpportunity e m minProfitPct = some o) :
    c.expectedProfitPct = (1 - totalImplied quotes) * 100 ∧
      o.profitPct = round2 ((1 / marketImpliedSum m - 1) * 100) := by
  constructor
  · rw [detectArbitrage] at h
    by_cases h1 : quotes.length < 2
    · rw [if_pos h1] at h; exact absurd h (by simp)
    rw [if_neg h1] at h
    by_cases h2 : (outcomeKeys quotes).length < 2
    · rw [if_pos h2] at h; exact absurd h (by simp)
    rw [if_neg h2] at h
    by_cases h3 : 1 ≤ totalImplied quotes
    · rw [if_pos h3] at h; exact absurd h (by simp)
    rw [if_neg h3, Option.some.injEq] at h
    rw [← h]
  · rw [marketOpportunity] at ho
    simp only [] at ho
    by_cases h1 : (bestPricesOf m).length < 2
    · rw [if_pos h1] at ho; exact absurd ho (by simp)
    rw [if_neg h1] at ho
    by_cases h2 : marketImpliedSum m < 49/50
    · rw [if_pos h2] at ho
      by_cases h3 : minProfitPct ≤ (1 / marketImpliedSum m - 1) * 100
      · rw [if_pos h3, Option.some.injEq] at ho
        rw [← ho]
      · rw [if_neg h3] at ho; exact absurd ho (by simp)
    · rw [if_neg h2] at ho; exact absurd ho (by simp)

/-- A two-outcome market with one book at +110 on X and one at +105
on Y: implied sum 830/861 ≈ 0.964, profit 310/83 ≈ 3.7349 %. -/
def cMarketC4 : MarketOdds :=
  { type := "h2h"
    description := "Moneyline"
    outcomes := [⟨"X", [⟨"a", 110⟩]⟩, ⟨"Y", [⟨"b", 105⟩]⟩] }

def cEventC4 : EventOdds :=
  { eventId := "ev"
    sport := "NBA"
    league := "L"
    homeTeam := "H"
    awayTeam := "A"
    startTime := "2025-09-15T20:00:00Z"
    markets := [cMarketC4] }

/-- The pick the scan-path calculator produces on `cEventC4` (for any
admitted `minProfitPct`; its fields do not depend on the filter). -/
def wPickC4 : MaxProfitPick :=
  { eventId := "ev"
    homeTeam := "H"
    awayTeam := "A"
    sport := "NBA"
    league := "L"
    startTime := "2025-09-15T20:00:00Z"
    marketType := "H2H"
    marketDescription := "Moneyline"
    legs := [⟨"X", "a", "+110", 4940⟩, ⟨"Y", "b", "+105", 5060⟩]
    profitPct := 373/100
    lockedProfit := 37349/100
    validityWindow := 300
    confidenceScore := 19/20 }

lemma wPickC4_eval1 : marketOpportunity cEventC4 cMarketC4 1 = some wPickC4 := by
  have e4 : jsRound (410000/83) = 4940 := jsRound_eq _ _ (by norm_num) (by norm_num)
  have e5 : jsRound (420000/83) = 5060 := jsRound_eq _ _ (by norm_num) (by norm_num)
  have e6 : jsRound (31000/83) = 373 := jsRound_eq _ _ (by norm_num) (by norm_num)
  have e7 : jsRound (3100000/83) = 37349 := jsRound_eq _ _ (by norm_num) (by norm_num)
  simp +decide [marketOpportunity, bestPricesOf, bestOf, upsertBP,
    marketImpliedSum, convertAmericanToDecimal, formatSportsbookName, formatOdds,
    round2, cEventC4, cMarketC4, wPickC4, min_def]
  norm_num [e4, e5, e6, e7]
  simp +decide [jsToUpper]
  norm_num [e4, e5, e6, e7]

lemma wPickC4_eval2 :
    marketOpportunity cEventC4 cMarketC4 (310/83) = some wPickC4 := by
  have e4 : jsRound (410000/83) = 4940 := jsRound_eq _ _ (by norm_num) (by norm_num)
  have e5 : jsRound (420000/83) = 5060 := jsRound_eq _ _ (by norm_num) (by norm_num)
  have e6 : jsRound (31000/83) = 373 := jsRound_eq _ _ (by norm_num) (by norm_num)
  have e7 : jsRound (3100000/83) = 37349 := jsRound_eq _ _ (by norm_num) (by norm_num)
  simp +decide [marketOpportunity, bestPricesOf, bestOf, upsertBP,
    marketImpliedSum, convertAmericanToDecimal, formatSportsbookName, formatOdds,
    round2, cEventC4, cMarketC4, wPickC4, min_def]
  norm_num [e4, e5, e6, e7]
  simp +decide [jsToUpper]
  norm_num [e4, e5, e6, e7]

/-- Witness for C3's amended theorem, at the C1 scenario quotes
(margin 700/817) and the `cEventC4` market (rounded 3.73 %). -/
theorem profit_formula_amended_witness :
    wCalcC1.expectedProfitPct = (1 - totalImplied wQuotesC1) * 100 ∧
      wPickC4.profitPct = round2 ((1 / marketImpliedSum cMarketC4 - 1) * 100) :=
  profit_formula_amended 0 "e" "m" wQuotesC1 wCalcC1 wCalcC1_eval
    cEventC4 cMarketC4 1 wPickC4 wPickC4_eval1

lemma round2_lb (p : ℚ) : p - 1/200 ≤ round2 p := by
  rw [round2, jsRound]
  have h := Int.sub_one_lt_floor (p * 100 + 1/2)
  have h2 : p * 100 - 1/2 < ((⌊p * 100 + 1/2⌋ : ℤ) : ℚ) := by linarith
  linarith

/-- Claim C4, counterexample: on `cEventC4` with
`minProfitPct = 310/83 ≈ 3.7349`, the computed (unrounded) profit
equals the threshold exactly, so the opportunity is emitted — but its
reported `profitPct` is rounded down to 3.73, strictly below
`minProfitPct`. -/
theorem profit_threshold_counterexample :
    (calculateArbitrageOpportunities [cEventC4] (310/83)).map
        (fun o => o.profitPct) = [373/100] ∧
      (373/100 : ℚ) < 310/83 := by
  constructor
  · have hrun : calculateArbitrageOpportunities [cEventC4] (310/83) = [wPickC4] := by
      rw [calculateArbitrageOpportunities]
      simp [List.filterMap_cons, wPickC4_eval2,
        show cEventC4.markets = [cMarketC4] from rfl]
    rw [hrun]
    simp [wPickC4]
  · norm_num

/-- Claim C4 (amended): every opportunity the scan-path calculator
returns was admitted with its unrounded profit percentage at least
`minProfitPct`; the reported `profitPct` is that value rounded to two
decimals, hence at least `minProfitPct - 1/200` (and the rounding can
push it strictly below `minProfitPct`, as the counterexample shows).
The legacy `detectArbitrage` applies no `minProfitPct` filter at
all. -/
theorem scan_profit_threshold (oddsData : List EventOdds) (minProfitPct : ℚ)
    (o : MaxProfitPick)
    (h : o ∈ calculateArbitrageOpportunities oddsData minProfitPct) :
    minProfitPct - 1/200 ≤ o.profitPct ∧
      ∃ p : ℚ, minProfitPct ≤ p ∧ o.profitPct = round2 p := by
  rw [calculateArbitrageOpportunities, List.mem_flatMap] at h
  obtain ⟨e, _, hmem⟩ := h
  rw [List.mem_filterMap] at hmem
  obtain ⟨m, _, ho⟩ := hmem
  rw [marketOpportunity] at ho
  simp only [] at ho
  by_cases h1 : (bestPricesOf m).length < 2
  · rw [if_pos h1] at ho; exact absurd ho (by simp)
  rw [if_neg h1] at ho
  by_cases h2 : marketImpliedSum m < 49/50
  · rw [if_pos h2] at ho
    by_cases h3 : minProfitPct ≤ (1 / marketImpliedSum m - 1) * 100
    · rw [if_pos h3, Option.some.injEq] at ho
      have hpp : o.profitPct = round2 ((1 / marketImpliedSum m - 1) * 100) := by
        rw [← ho]
      refine ⟨?_, ⟨(1 / marketImpliedSum m - 1) * 100, h3, hpp⟩⟩
      rw [hpp]
      have := round2_lb ((1 / marketImpliedSum m - 1) * 100)
      linarith
    · rw [if_neg h3] at ho; exact absurd ho (by simp)
  · rw [if_neg h2] at ho; exact absurd ho (by simp)

/-- Witness for C4's amended theorem, on `cEventC4` at
`minProfitPct = 1`. -/
theorem scan_profit_threshold_witness :
    (1 : ℚ) - 1/200 ≤ wPickC4.profitPct :=
  (scan_profit_threshold [cEventC4] 1 wPickC4 (by
    have hrun : calculateArbitrageOpportunities [cEventC4] 1 = [wPickC4] := by
      rw [calculateArbitrageOpportunities]
      simp [List.filterMap_cons, wPickC4_eval1,
        show cEventC4.markets = [cMarketC4] from rfl]
    rw [hrun]
    exact List.mem_singleton.2 rfl)).1

/-! ## Claims C6 and C10: the hedge calculator -/

/-- Claim C6: `calculateHedge` emits a suggestion only when the
locked-profit floor is strictly positive; a non-positive
`lockedProfitLow` yields `null`. -/
theorem hedge_positive_locked_profit (now : ℤ) (bet : UserBet)
    (quotes : List Quote) (c : HedgeCalculation)
    (h : calculateHedge now bet quotes = some c) : 0 < c.lockedProfitLow := by
  rw [calculateHedge] at h
  cases hb : bestOpposing bet quotes with
  | none => rw [hb] at h; exact absurd h (by simp)
  | some bq =>
      rw [hb] at h
      simp only [] at h
      split at h
      · exact absurd h (by simp)
      · rename_i hcond
        rw [Option.some.injEq] at h
        rw [← h]
        exact lt_of_not_le hcond

def wBet : UserBet := ⟨100, 11/5, "X"⟩

def wHedgeQuotes : List Quote := [⟨"dk", "X", 21/10, 0⟩, ⟨"fd", "Y", 39/20, 0⟩]

/-- The calculation `calculateHedge` produces on the spec's §8 hedge
scenario: a $100 bet at 2.20 hedged at 1.95 locks $7.18 = 280/39. -/
def wHedgeCalc : HedgeCalculation :=
  { suggestedLegs := [⟨"fd", "Y", 39/20, 113⟩]
    lockedProfitLow := 280/39
    lockedProfitHigh := 280/39
    confidence := 1 }

lemma wHedgeCalc_eval : calculateHedge 0 wBet wHedgeQuotes = some wHedgeCalc := by
  have e8 : jsRound (4400/39) = 113 := jsRound_eq _ _ (by norm_num) (by norm_num)
  have e9 : jsRound 100 = 100 := jsRound_eq _ _ (by norm_num) (by norm_num)
  simp +decide [calculateHedge, bestOpposing, bestQuote, reduceBest,
    potentialReturn, calculateHedgeConfidence, wBet, wHedgeQuotes, wHedgeCalc,
    max_def, min_def, List.filter_cons, List.filter_nil]
  norm_num [e8, e9]

/-- Witness for C6, on the spec's §8 hedge scenario. -/
theorem hedge_positive_locked_profit_witness : 0 < wHedgeCalc.lockedProfitLow :=
  hedge_positive_locked_profit 0 wBet wHedgeQuotes wHedgeCalc wHedgeCalc_eval

/-- Claim C10: with positive quote prices, the hedge return
`(potentialReturn / hedgePrice) * hedgePrice` collapses to exactly
`potentialReturn`, so both profit scenarios coincide and every emitted
suggestion has `lockedProfitLow = lockedProfitHigh`. -/
theorem hedge_locked_range_degenerate (now : ℤ) (bet : UserBet)
    (quotes : List Quote) (bq : Quote) (hb : bestOpposing bet quotes = some bq)
    (hpos : ∀ q ∈ quotes, 0 < q.priceValue) (c : HedgeCalculation)
    (h : calculateHedge now bet quotes = some c) :
    potentialReturn bet / bq.priceValue * bq.priceValue = potentialReturn bet ∧
      c.lockedProfitLow = c.lockedProfitHigh := by
  have hbq_mem : bq ∈ quotes := by
    have hb' := hb
    rw [bestOpposing] at hb'
    have hmem := (best_quote_selection _ _ hb').1
    exact (List.mem_filter.1 hmem).1
  have hpne : bq.priceValue ≠ 0 := ne_of_gt (hpos bq hbq_mem)
  have hcancel : potentialReturn bet / bq.priceValue * bq.priceValue =
      potentialReturn bet := div_mul_cancel₀ _ hpne
  refine ⟨hcancel, ?_⟩
  rw [calculateHedge, hb] at h
  simp only [] at h
  split at h
  · exact absurd h (by simp)
  · rw [Option.some.injEq] at h
    rw [← h]
    show min _ _ = max _ _
    rw [hcancel, min_self, max_self]

/-- Witness for C10, on the spec's §8 hedge scenario: the advertised
locked-profit range is a single value. -/
theorem hedge_locked_range_degenerate_witness :
    wHedgeCalc.lockedProfitLow = wHedgeCalc.lockedProfitHigh :=
  (hedge_locked_range_degenerate 0 wBet wHedgeQuotes ⟨"fd", "Y", 39/20, 0⟩
    (by
      simp +decide [bestOpposing, bestQuote, reduceBest, wBet, wHedgeQuotes,
        List.filter_cons, List.filter_nil])
    (by
      intro q hq
      simp only [wHedgeQuotes, List.mem_cons, List.not_mem_nil, or_false] at hq
      rcases hq with rfl | rfl <;> norm_num)
    wHedgeCalc wHedgeCalc_eval).2

/-! ## Claim C7: the mock-data fallback -/

/-- Claim C7: the real-data conversion is a stub returning an empty
list, so on every scan — whether the provider call succeeds or throws —
`fetchAndStoreOddsData` hands the arbitrage calculator the hardcoded
mock odds data. -/
theorem scan_mock_fallback {α β : Type} (apiCall : Except String CreditUsage)
    (storedEvents : List α) (storedQuotes : List β)
    (eligibleBookmakers : List String) :
    (fetchAndStoreOddsData apiCall storedEvents storedQuotes
        eligibleBookmakers).opportunities =
      getMockArbitrageData eligibleBookmakers ∧
    convertToArbitrageFormat storedEvents storedQuotes eligibleBookmakers =
      ([] : List EventOdds) := by
  constructor
  · cases apiCall with
    | ok cu => rfl
    | error e => rfl
  · rfl

/-! ## Claim C8: mandatory jurisdiction selection -/

/-- Claim C8: an empty jurisdiction list makes the estimate throw
immediately, and makes the scan route reject the body at validation,
before the scan collaborator (and hence any provider endpoint) is
invoked — zero provider calls are made regardless of what the scan
would do. -/
theorem empty_jurisdictions_rejected {α : Type}
    (sm : List (String × List String)) (request : EstimateRequest)
    (hreq : request.states = []) (scan : EstimateRequest → α × ℕ)
    (body : ScanBody) (hbody : body.states = []) :
    estimateAPIUsage sm request =
        Except.error
          "State filtering is mandatory - please select at least one state" ∧
      scanRouteHandler scan body =
        (Except.error "At least one state is required", 0) := by
  constructor
  · rw [estimateAPIUsage, if_pos hreq]
  · rw [scanRouteHandler, if_pos (by rw [hbody]; decide)]

/-- Witness for C8: the empty-jurisdiction estimate and scan requests
are rejected, and the (arbitrary) scan collaborator — which would
report 7 provider calls if invoked — is never reached. -/
theorem empty_jurisdictions_rejected_witness :
    estimateAPIUsage stateMap ⟨[], none, none, none, none⟩ =
        Except.error
          "State filtering is mandatory - please select at least one state" ∧
      scanRouteHandler (fun _ => ((0 : ℕ), 7))
          ⟨[], none, none, none, none, true⟩ =
        (Except.error "At least one state is required", 0) :=
  empty_jurisdictions_rejected stateMap ⟨[], none, none, none, none⟩ rfl
    (fun _ => ((0 : ℕ), 7)) ⟨[], none, none, none, none, true⟩ rfl
